import Mathlib

/-!
# Verification of `hours2drupal`

A shallow embedding of the Go command-line tool `hours2drupal`, which reads
building-hours CSV files and publishes them to a Drupal 9 JSON API as one
node per month with one `hours_by_day` paragraph per day.

Modelling conventions:
* Go strings are Lean `String`; `strings.TrimSpace` is modelled by
  `String.trimSpace` (both trim surrounding whitespace).
* A CSV file is modelled as the list of records produced by Go's
  `encoding/csv` reader: a list of rows, each row a list of field strings.
  The reader's check that every record has the same number of fields as the
  first record (ErrFieldCount) is modelled explicitly in the read loop.
* `time.Time` values carry only the calendar date here, since the program
  only ever parses and formats dates; `time.Parse("2006-01-02", s)` is
  modelled by `parseDate`.
* The network is an oracle: each HTTP exchange is given by a response
  (status code and body text) supplied per call.  The cancellation context
  is modelled by the index of the operation after which the interrupt
  signal is considered delivered.
-/

/-- The leap-year rule used by Go's `time` package (proleptic Gregorian). -/
def isLeapYear (y : Nat) : Bool :=
  y % 4 = 0 && (y % 100 != 0 || y % 400 = 0)

/-- Days in a month, as validated by Go's `time.Parse` date range checks. -/
def daysInMonth (y m : Nat) : Nat :=
  if m = 2 then (if isLeapYear y then 29 else 28)
  else if m = 4 || m = 6 || m = 9 || m = 11 then 30
  else 31

/-- Calendar date (the only part of Go's `time.Time` the program uses). -/
structure Date where
  year : Nat
  month : Nat
  day : Nat
deriving DecidableEq, Repr

/-- Numeric value of a decimal digit character. -/
def digitVal (c : Char) : Nat := c.toNat - 48

/-- Drop leading whitespace characters. -/
def dropWS : List Char → List Char
  | [] => []
  | c :: rest => if c.isWhitespace then dropWS rest else c :: rest

/-- Model of Go `strings.TrimSpace`: remove surrounding whitespace.
(Defined by structural recursion so that concrete instances evaluate
inside the kernel.) -/
def String.trimSpace (s : String) : String :=
  String.mk ((dropWS ((dropWS s.data).reverse)).reverse)

/-- Model of Go `time.Parse("2006-01-02", s)`: exactly four year digits,
a hyphen, two month digits, a hyphen, two day digits, with the month in
1..12 and the day within the month (leap years respected), consuming the
whole input. Returns `none` where Go returns a parse error. -/
def parseDate (s : String) : Option Date :=
  match s.toList with
  | [y1, y2, y3, y4, s1, m1, m2, s2, d1, d2] =>
    if y1.isDigit && y2.isDigit && y3.isDigit && y4.isDigit &&
       s1 = '-' && m1.isDigit && m2.isDigit &&
       s2 = '-' && d1.isDigit && d2.isDigit then
      let y := ((digitVal y1 * 10 + digitVal y2) * 10 + digitVal y3) * 10 + digitVal y4
      let m := digitVal m1 * 10 + digitVal m2
      let d := digitVal d1 * 10 + digitVal d2
      if 1 ≤ m && m ≤ 12 && 1 ≤ d && d ≤ daysInMonth y m then
        some ⟨y, m, d⟩
      else none
    else none
  | _ => none

/-- Zero-pad a number to at least two decimal digits (Go layout `01`/`02`). -/
def pad2 (n : Nat) : String :=
  if n < 10 then "0" ++ toString n else toString n

/-- Zero-pad a number to at least four decimal digits (Go layout `2006`). -/
def pad4 (n : Nat) : String :=
  if n < 10 then "000" ++ toString n
  else if n < 100 then "00" ++ toString n
  else if n < 1000 then "0" ++ toString n
  else toString n

/-- Full English month name (Go layout `January`). -/
def monthName (m : Nat) : String :=
  match m with
  | 1 => "January" | 2 => "February" | 3 => "March" | 4 => "April"
  | 5 => "May" | 6 => "June" | 7 => "July" | 8 => "August"
  | 9 => "September" | 10 => "October" | 11 => "November" | 12 => "December"
  | _ => ""

/-- Model of `h.Day.Format("2006-01-02")`. -/
def formatISO (d : Date) : String :=
  pad4 d.year ++ "-" ++ pad2 d.month ++ "-" ++ pad2 d.day

/-- Model of `h.Day.Format("January, 2006")`. -/
def formatMonthYear (d : Date) : String :=
  monthName d.month ++ ", " ++ pad4 d.year

/-- The `ProjectName` constant from the source. -/
def ProjectName : String := "hours2drupal"

/-- The `Version` constant from the source (default, not overwritten by ldflags). -/
def Version : String := "devel"

/-- The `HoursPath` constant from the source. -/
def HoursPath : String := "/jsonapi/node/hours"

/-- The `HoursByDayPath` constant from the source. -/
def HoursByDayPath : String := "/jsonapi/paragraph/hours_by_day"

/-- The usage-pattern line printed by `flag.Usage` in the source:
`fmt.Fprintf(w, "Usage: %v [FLAGS] file [file...]\n", Version)`.
Note the format argument is `Version`, not `ProjectName`. -/
def usageLine : String := "Usage: " ++ Version ++ " [FLAGS] file [file...]"

/-- The four lines printed by `flag.Usage` before the flag descriptions,
in order (trailing newlines stripped). -/
def usageHeaderLines : List String :=
  [ProjectName,
   "Process CSV files of hours, and import them into a target Drupal 9 website. " ++ Version,
   "Version " ++ Version,
   usageLine]

/-- Record `DailyHours` stores the data from the CSV file. -/
structure DailyHours where
  Day : Date
  Note : String
  BuildingHours : String
  ChatHours : String
deriving DecidableEq, Repr

/-- Errors produced by `loadFromCSV`, structured by kind:
`noHeader` models `ErrNoHeader`; `missingField f n` models the
`ErrMissingData`-wrapping errors (`"missing data: empty <f> on line <n>"`);
`badDay n raw` models the wrap of the `time.Parse` failure on line `n`;
`fieldCount n` models `csv.ErrFieldCount` from the underlying reader when a
record's field count differs from the header's. -/
inductive CSVErr where
  | noHeader
  | missingField (field : String) (line : Nat)
  | badDay (line : Nat) (raw : String)
  | fieldCount (line : Nat)
deriving DecidableEq, Repr

/-- The rendered Go error message for each `CSVErr` (for the wrapped
errors, the text produced by `fmt.Errorf`). The `badDay` underlying
`time.Parse` message is abbreviated to the offending value. -/
def csvErrMessage : CSVErr → String
  | .noHeader => "csv file did not have a header"
  | .missingField f n => "missing data: empty " ++ f ++ " on line " ++ toString n
  | .badDay n raw => "Could not parse day on line " ++ toString n ++ ": " ++ raw
  | .fieldCount n => "record on line " ++ toString n ++ ": wrong number of fields"

/-- Whether a `CSVErr` wraps the `ErrMissingData` sentinel
(`errors.Is(err, ErrMissingData)`). -/
def CSVErr.isMissingData : CSVErr → Bool
  | .missingField _ _ => true
  | _ => false

/-- The map-building loop over the header cells, tracking the current cell
index `i` and the value currently stored for `name` (later duplicates
overwrite earlier ones). -/
def colIndexAux (name : String) : List String → Nat → Nat → Nat
  | [], _, acc => acc
  | c :: rest, i, acc => colIndexAux name rest (i + 1) (if c.trimSpace = name then i else acc)

/-- The column-name-to-index map built from the header row:
`h[strings.TrimSpace(header)] = i` for each cell in order, and a Go map
lookup of an absent key yields the zero value `0`. -/
def colIndex (header : List String) (name : String) : Nat :=
  colIndexAux name header 0 0

/-- Field access `l[h[name]]`: in the modelled (uniform-width) files the
index is always in range, so the `getD` default is never consulted. -/
def fieldAt (l : List String) (i : Nat) : String := l.getD i ""

/-- Processing of one data row of `loadFromCSV` (the body of the read loop
after the `csv` reader has produced the record `l`), at 1-based line number
`lineNum`: extract and trim the four fields via the header map, require a
non-empty day that parses as `YYYY-MM-DD`, then non-empty building hours
and chat hours. -/
def processRow (h : String → Nat) (l : List String) (lineNum : Nat) :
    Except CSVErr DailyHours :=
  let note := (fieldAt l (h "note")).trimSpace
  let buildingHours := (fieldAt l (h "building hours")).trimSpace
  let chatHours := (fieldAt l (h "chat hours")).trimSpace
  let day := (fieldAt l (h "day")).trimSpace
  if day = "" then .error (.missingField "day" lineNum)
  else
    match parseDate day with
    | none => .error (.badDay lineNum day)
    | some parsedDay =>
      if buildingHours = "" then .error (.missingField "building hours" lineNum)
      else if chatHours = "" then .error (.missingField "chat hours" lineNum)
      else .ok ⟨parsedDay, note, buildingHours, chatHours⟩

/-- The read loop of `loadFromCSV`: `lineNum` is the line counter (starting
at 1 for the header and incremented before each read); `width` is the field
count fixed by the header record, which the `csv` reader enforces on every
subsequent record. On an error the accumulated records are returned
alongside it, exactly as the Go function returns its named `hours` result
together with a non-nil error. -/
def loadLoop (h : String → Nat) (width : Nat) :
    List (List String) → Nat → List DailyHours →
    List DailyHours × Option CSVErr
  | [], _, acc => (acc, none)
  | l :: rest, lineNum, acc =>
    if l.length ≠ width then (acc, some (.fieldCount (lineNum + 1)))
    else
      match processRow h l (lineNum + 1) with
      | .error e => (acc, some e)
      | .ok d => loadLoop h width rest (lineNum + 1) (acc ++ [d])

/-- Model of `loadFromCSV`: the file is the list of records the `csv`
reader yields. An empty file gives `ErrNoHeader`; otherwise the header
builds the column map and the loop processes the data rows. -/
def loadFromCSV (file : List (List String)) : List DailyHours × Option CSVErr :=
  match file with
  | [] => ([], some .noHeader)
  | header :: rows => loadLoop (colIndex header) header.length rows 1 []

/-- The record a well-formed row should produce, written from the spec's
words: the date is the parsed `day` field and the three texts are the
row's values with surrounding whitespace trimmed. -/
def specDailyHours (h : String → Nat) (l : List String) : DailyHours :=
  { Day := (parseDate (fieldAt l (h "day")).trimSpace).getD ⟨0, 0, 0⟩
    Note := (fieldAt l (h "note")).trimSpace
    BuildingHours := (fieldAt l (h "building hours")).trimSpace
    ChatHours := (fieldAt l (h "chat hours")).trimSpace }

/-- A data row is well-formed for the map `h` and record width `width`:
right field count, non-empty parseable day, non-empty building hours and
chat hours. -/
def rowOK (h : String → Nat) (width : Nat) (l : List String) : Bool :=
  l.length = width &&
  (fieldAt l (h "day")).trimSpace ≠ "" &&
  (parseDate (fieldAt l (h "day")).trimSpace).isSome &&
  (fieldAt l (h "building hours")).trimSpace ≠ "" &&
  (fieldAt l (h "chat hours")).trimSpace ≠ ""

/-- Struct `ParagraphRelationship` from the source, with the nested `Meta` struct
flattened to its one field. `Type` is not a legal Lean field name, so the
source's `Type` field is `Type'` throughout. -/
structure ParagraphRelationship where
  Type' : String
  ID : String
  TargetRevisionID : Int
deriving DecidableEq, Repr

/-- Struct `HoursNode` from the source, the nested `Data`/`Attributes`/
`Relationships.FieldDay.Data` structure flattened to its leaf fields. -/
structure HoursNode where
  Type' : String
  ID : String
  Title : String
  FieldDay : List ParagraphRelationship
deriving DecidableEq, Repr

/-- Struct `HoursByDayParagraph` from the source, nested structs flattened. -/
structure HoursByDayParagraph where
  Type' : String
  ID : String
  DrupalInternalID : Int
  DrupalInternalRevisionID : Int
  ParentID : String
  ParentType : String
  ParentFieldName : String
  BuildingHours : String
  ChatHours : String
  Day : String
  Note : String
deriving DecidableEq, Repr

/-- Constructor `NewHoursNode`: fixed type discriminator, trimmed title. -/
def NewHoursNode (title : String) : HoursNode :=
  { Type' := "node--hours", ID := "", Title := title.trimSpace, FieldDay := [] }

/-- Constructor `NewHoursByDayParagraph`: fixed structural fields, the four free-text
fields trimmed (the parent id is not trimmed in the source). -/
def NewHoursByDayParagraph (parentID buildingHours chatHours day note : String) :
    HoursByDayParagraph :=
  { Type' := "paragraph--hours_by_day", ID := ""
    DrupalInternalID := 0, DrupalInternalRevisionID := 0
    ParentID := parentID, ParentType := "node", ParentFieldName := "field_day"
    BuildingHours := buildingHours.trimSpace, ChatHours := chatHours.trimSpace
    Day := day.trimSpace, Note := note.trimSpace }

/-- Constructor `NewParagraphRelationship`: copies its three inputs unchanged. -/
def NewParagraphRelationship (pType pID : String) (targetRevisionID : Int) :
    ParagraphRelationship :=
  { Type' := pType, ID := pID, TargetRevisionID := targetRevisionID }

/-- JSON values, modelling the subset of `encoding/json` the program
exchanges (integers suffice for the numeric fields involved). -/
inductive Json where
  | null
  | bool (b : Bool)
  | num (n : Int)
  | str (s : String)
  | arr (elems : List Json)
  | obj (fields : List (String × Json))
deriving Repr

/-- Skip JSON whitespace. -/
def skipWS (cs : List Char) : List Char :=
  match cs with
  | c :: rest =>
    if c = ' ' || c = '\n' || c = '\t' || c = '\r' then skipWS rest else c :: rest
  | [] => []

/-- Read the characters of a JSON string after the opening quote, up to the
closing quote. Escape sequences are not modelled (none occur in the bodies
this development reasons about); a backslash makes the parse fail. -/
def parseStringChars : List Char → Option (List Char × List Char)
  | [] => none
  | c :: rest =>
    if c = '\"' then some ([], rest)
    else if c = '\\' then none
    else (parseStringChars rest).map (fun p => (c :: p.1, p.2))

/-- Split a leading run of decimal digits. -/
def takeDigits : List Char → List Char × List Char
  | [] => ([], [])
  | c :: rest =>
    if c.isDigit then
      let p := takeDigits rest
      (c :: p.1, p.2)
    else ([], c :: rest)

/-- Value of a run of decimal digits. -/
def digitsToNat (ds : List Char) : Nat :=
  ds.foldl (fun a c => a * 10 + digitVal c) 0

mutual

/-- Fuel-indexed recursive-descent JSON value parser. -/
def parseValue : Nat → List Char → Option (Json × List Char)
  | 0, _ => none
  | fuel + 1, cs =>
    match skipWS cs with
    | [] => none
    | c :: rest =>
      if c = '\"' then
        (parseStringChars rest).map (fun p => (Json.str (String.mk p.1), p.2))
      else if c = '\x7b' then
        (parseMembers fuel (skipWS rest) true).map (fun p => (Json.obj p.1, p.2))
      else if c = '[' then
        (parseElems fuel (skipWS rest) true).map (fun p => (Json.arr p.1, p.2))
      else if c = 'n' then
        match rest with
        | 'u' :: 'l' :: 'l' :: r => some (Json.null, r)
        | _ => none
      else if c = 't' then
        match rest with
        | 'r' :: 'u' :: 'e' :: r => some (Json.bool true, r)
        | _ => none
      else if c = 'f' then
        match rest with
        | 'a' :: 'l' :: 's' :: 'e' :: r => some (Json.bool false, r)
        | _ => none
      else if c = '-' then
        match takeDigits rest with
        | ([], _) => none
        | (ds, r) => some (Json.num (-(digitsToNat ds : Int)), r)
      else if c.isDigit then
        match takeDigits (c :: rest) with
        | ([], _) => none
        | (ds, r) => some (Json.num (digitsToNat ds), r)
      else none

/-- Parse object members; `first` is true before the first member. -/
def parseMembers : Nat → List Char → Bool → Option (List (String × Json) × List Char)
  | 0, _, _ => none
  | fuel + 1, cs, first =>
    match cs with
    | '\x7d' :: rest => if first then some ([], rest) else none
    | '\"' :: rest =>
      match parseStringChars rest with
      | none => none
      | some (key, afterKey) =>
        match skipWS afterKey with
        | ':' :: afterColon =>
          match parseValue fuel afterColon with
          | none => none
          | some (v, afterVal) =>
            match skipWS afterVal with
            | ',' :: afterComma =>
              match parseMembers fuel (skipWS afterComma) false with
              | some (ms, r) => some ((String.mk key, v) :: ms, r)
              | none => none
            | '\x7d' :: r => some ([(String.mk key, v)], r)
            | _ => none
        | _ => none
    | _ => none

/-- Parse array elements; `first` is true before the first element. -/
def parseElems : Nat → List Char → Bool → Option (List Json × List Char)
  | 0, _, _ => none
  | fuel + 1, cs, first =>
    match cs with
    | ']' :: rest => if first then some ([], rest) else none
    | _ =>
      match parseValue fuel cs with
      | none => none
      | some (v, afterVal) =>
        match skipWS afterVal with
        | ',' :: afterComma =>
          match parseElems fuel (skipWS afterComma) false with
          | some (es, r) => some (v :: es, r)
          | none => none
        | ']' :: r => some ([v], r)
        | _ => none

end

/-- Model of `json.Unmarshal`-style whole-input parsing: the value must be
followed only by whitespace. -/
def parseJson (s : String) : Option Json :=
  match parseValue (2 * s.length + 2) s.toList with
  | some (j, rest) => if skipWS rest = [] then some j else none
  | none => none

/-- Marshal of `ParagraphRelationship` (no `omitempty` on its fields). -/
def ParagraphRelationship.toJson (r : ParagraphRelationship) : Json :=
  .obj [("type", .str r.Type'), ("id", .str r.ID),
        ("meta", .obj [("target_revision_id", .num r.TargetRevisionID)])]

/-- Marshal of `HoursNode`, following the struct tags: `id` carries
`omitempty`; `relationships` is tagged `omitempty` but Go never omits a
struct-typed field, so it is always present; a nil (empty) slice marshals
as `null`. -/
def marshalNode (n : HoursNode) : Json :=
  .obj [("data", .obj (
    [("type", Json.str n.Type')] ++
    (if n.ID = "" then [] else [("id", Json.str n.ID)]) ++
    [("attributes", Json.obj [("title", .str n.Title)]),
     ("relationships", Json.obj [("field_day", Json.obj [("data",
       if n.FieldDay.isEmpty then Json.null
       else Json.arr (n.FieldDay.map ParagraphRelationship.toJson))])])]))]

/-- Marshal of `HoursByDayParagraph`, following the struct tags:
`id`, `drupal_internal__id` and `drupal_internal__revision_id` carry
`omitempty` (omitted when `""` resp. `0`). -/
def marshalParagraph (p : HoursByDayParagraph) : Json :=
  .obj [("data", .obj (
    [("type", Json.str p.Type')] ++
    (if p.ID = "" then [] else [("id", Json.str p.ID)]) ++
    [("attributes", Json.obj (
      (if p.DrupalInternalID = 0 then []
       else [("drupal_internal__id", Json.num p.DrupalInternalID)]) ++
      (if p.DrupalInternalRevisionID = 0 then []
       else [("drupal_internal__revision_id", Json.num p.DrupalInternalRevisionID)]) ++
      [("parent_id", Json.str p.ParentID),
       ("parent_type", Json.str p.ParentType),
       ("parent_field_name", Json.str p.ParentFieldName),
       ("field_building_hours", Json.str p.BuildingHours),
       ("field_chat_hours", Json.str p.ChatHours),
       ("field_day", Json.str p.Day),
       ("field_note", Json.str p.Note)]))]))]

/-- Lookup of an object member; Go's decoder processes members in order and
later duplicates overwrite earlier ones, so the last binding wins. -/
def jLookup (fields : List (String × Json)) (k : String) : Option Json :=
  fields.foldl (fun acc p => if p.1 = k then some p.2 else acc) none

/-- Model of the `json.Unmarshal` merge into a string field: absent or `null` leaves the
current value, a string overwrites, any other shape is a type error. -/
def mergeString (cur : String) : Option Json → Except String String
  | none => .ok cur
  | some .null => .ok cur
  | some (.str s) => .ok s
  | some _ => .error "cannot unmarshal into field of type string"

/-- Model of the `json.Unmarshal` merge into an int field. -/
def mergeInt (cur : Int) : Option Json → Except String Int
  | none => .ok cur
  | some .null => .ok cur
  | some (.num n) => .ok n
  | some _ => .error "cannot unmarshal into field of type int"

/-- Unmarshal one relationship object into a (zeroed) element. -/
def unmarshalRel (j : Json) (cur : ParagraphRelationship) :
    Except String ParagraphRelationship := do
  match j with
  | .null => .ok cur
  | .obj fs =>
    let t ← mergeString cur.Type' (jLookup fs "type")
    let i ← mergeString cur.ID (jLookup fs "id")
    let rev ←
      match jLookup fs "meta" with
      | none => Except.ok cur.TargetRevisionID
      | some .null => Except.ok cur.TargetRevisionID
      | some (.obj ms) => mergeInt cur.TargetRevisionID (jLookup ms "target_revision_id")
      | some _ => Except.error "cannot unmarshal into struct Meta"
    .ok ⟨t, i, rev⟩
  | _ => .error "cannot unmarshal into struct ParagraphRelationship"

/-- Model of the `json.Unmarshal` merge into the relationship slice: absent keeps the
current slice, `null` sets it to nil, an array decodes each element into a
zeroed slot. -/
def mergeRels (cur : List ParagraphRelationship) :
    Option Json → Except String (List ParagraphRelationship)
  | none => .ok cur
  | some .null => .ok []
  | some (.arr es) => es.mapM (fun e => unmarshalRel e ⟨"", "", 0⟩)
  | some _ => .error "cannot unmarshal into slice"

/-- Model of `json.Unmarshal(rb, n)` for `HoursNode`: fields present in the
body overwrite the in-memory node, absent fields keep their values. -/
def unmarshalNode (j : Json) (n : HoursNode) : Except String HoursNode := do
  match j with
  | .null => .ok n
  | .obj fs =>
    match jLookup fs "data" with
    | none => .ok n
    | some .null => .ok n
    | some (.obj ds) =>
      let t ← mergeString n.Type' (jLookup ds "type")
      let i ← mergeString n.ID (jLookup ds "id")
      let title ←
        match jLookup ds "attributes" with
        | none => Except.ok n.Title
        | some .null => Except.ok n.Title
        | some (.obj ats) => mergeString n.Title (jLookup ats "title")
        | some _ => Except.error "cannot unmarshal into struct Attributes"
      let rels ←
        match jLookup ds "relationships" with
        | none => Except.ok n.FieldDay
        | some .null => Except.ok n.FieldDay
        | some (.obj rs) =>
          match jLookup rs "field_day" with
          | none => Except.ok n.FieldDay
          | some .null => Except.ok n.FieldDay
          | some (.obj fd) => mergeRels n.FieldDay (jLookup fd "data")
          | some _ => Except.error "cannot unmarshal into struct FieldDay"
        | some _ => Except.error "cannot unmarshal into struct Relationships"
      .ok ⟨t, i, title, rels⟩
    | some _ => .error "cannot unmarshal into struct Data"
  | _ => .error "cannot unmarshal into struct HoursNode"

/-- Model of `json.Unmarshal(rb, p)` for `HoursByDayParagraph`. -/
def unmarshalParagraph (j : Json) (p : HoursByDayParagraph) :
    Except String HoursByDayParagraph := do
  match j with
  | .null => .ok p
  | .obj fs =>
    match jLookup fs "data" with
    | none => .ok p
    | some .null => .ok p
    | some (.obj ds) =>
      let t ← mergeString p.Type' (jLookup ds "type")
      let i ← mergeString p.ID (jLookup ds "id")
      match jLookup ds "attributes" with
      | some (.obj ats) =>
        let iid ← mergeInt p.DrupalInternalID (jLookup ats "drupal_internal__id")
        let rev ← mergeInt p.DrupalInternalRevisionID (jLookup ats "drupal_internal__revision_id")
        let pid ← mergeString p.ParentID (jLookup ats "parent_id")
        let pty ← mergeString p.ParentType (jLookup ats "parent_type")
        let pfn ← mergeString p.ParentFieldName (jLookup ats "parent_field_name")
        let bh ← mergeString p.BuildingHours (jLookup ats "field_building_hours")
        let ch ← mergeString p.ChatHours (jLookup ats "field_chat_hours")
        let dy ← mergeString p.Day (jLookup ats "field_day")
        let nt ← mergeString p.Note (jLookup ats "field_note")
        .ok ⟨t, i, iid, rev, pid, pty, pfn, bh, ch, dy, nt⟩
      | none =>
        .ok { p with Type' := t, ID := i }
      | some .null =>
        .ok { p with Type' := t, ID := i }
      | some _ => .error "cannot unmarshal into struct Attributes"
    | some _ => .error "cannot unmarshal into struct Data"
  | _ => .error "cannot unmarshal into struct HoursByDayParagraph"

/-- One HTTP response, as seen by `doAPICall`: the status code and the raw
body text. -/
structure HttpResponse where
  status : Nat
  body : String
deriving Repr

/-- The failure-path message built by both `doAPICall` implementations:
`fmt.Errorf("%w: %v %v failed [%v]\n%v", ErrAPIError, r.Method, r.URL, resp.StatusCode, body)`. -/
def apiErrorMessage (method url : String) (status : Nat) (body : String) : String :=
  "an API error occurred: " ++ method ++ " " ++ url ++ " failed [" ++
    toString status ++ "]" ++ "\n" ++ body

/-- Errors surfaced by the processing pipeline. `cancelled` models both the
explicit `ctx.Err()` return and the transport failure of an HTTP exchange
attempted on an already-cancelled context; `apiError` is the
`ErrAPIError`-wrapping error; `jsonError` covers response-body decode
failures. -/
inductive RunError where
  | loadError (fileIdx : Nat) (e : CSVErr)
  | cancelled
  | apiError (method url : String) (status : Nat) (body : String)
  | jsonError (msg : String)
deriving DecidableEq, Repr

/-- Whether a `RunError` wraps the `ErrAPIError` sentinel. -/
def RunError.isAPIError : RunError → Bool
  | .apiError _ _ _ _ => true
  | _ => false

/-- The rendered message of a `RunError` where the claims need it. -/
def RunError.message : RunError → String
  | .loadError i e => "processing CSV file " ++ toString i ++ " failed, " ++ csvErrMessage e
  | .cancelled => "context canceled"
  | .apiError m u s b => apiErrorMessage m u s b
  | .jsonError m => m

/-- Model of `(*HoursNode).doAPICall`: an exchange on an already-cancelled
context fails in the HTTP client; a 200/201 response has its full body
parsed as the request's JSON shape and merged over the in-memory node; any
other status yields the `ErrAPIError`-wrapping error carrying the method,
URL, status code and raw body. -/
def HoursNode.doAPICall (n : HoursNode) (method url : String) (cancelled : Bool)
    (resp : HttpResponse) : Except RunError HoursNode :=
  if cancelled then .error .cancelled
  else if resp.status = 200 || resp.status = 201 then
    match parseJson resp.body with
    | none => .error (.jsonError resp.body)
    | some j =>
      match unmarshalNode j n with
      | .error m => .error (.jsonError m)
      | .ok updated => .ok updated
  else .error (.apiError method url resp.status resp.body)

/-- Model of `(*HoursByDayParagraph).doAPICall`, identical response
handling with the paragraph shape. -/
def HoursByDayParagraph.doAPICall (p : HoursByDayParagraph) (method url : String)
    (cancelled : Bool) (resp : HttpResponse) : Except RunError HoursByDayParagraph :=
  if cancelled then .error .cancelled
  else if resp.status = 200 || resp.status = 201 then
    match parseJson resp.body with
    | none => .error (.jsonError resp.body)
    | some j =>
      match unmarshalParagraph j p with
      | .error m => .error (.jsonError m)
      | .ok updated => .ok updated
  else .error (.apiError method url resp.status resp.body)

/-- URL `https://<target>` + `HoursPath`, the node create URL. -/
def nodeURL (target : String) : String := "https://" ++ target ++ HoursPath

/-- URL `https://<target>` + `HoursByDayPath`, the paragraph create URL. -/
def paragraphURL (target : String) : String := "https://" ++ target ++ HoursByDayPath

/-- The node update URL: the node path with the node's id appended. -/
def nodePatchURL (target id : String) : String := nodeURL target ++ "/" ++ id

/-- One side-effecting operation attempted by the run, for stating which
file reads and API calls were made and in what order. -/
inductive Event where
  | fileRead (idx : Nat)
  | nodeCreate (title : String)
  | paragraphCreate (day : String)
  | nodePatch (id : String)
deriving DecidableEq, Repr

/-- The request an API call puts on the wire (method, URL and JSON body);
headers and basic-auth credentials are fixed per the source and carry no
information the claims depend on. -/
structure ApiRequest where
  method : String
  url : String
  body : Json
deriving Repr

/-- The cancellation context: `none` if the interrupt signal never arrives,
`some k` if it has been delivered once `k` operations (file reads and API
calls, in run order) have completed. `ctxErr` is what `ctx.Err() != nil`
reads at operation index `step`. -/
def ctxErr (cancelAfter : Option Nat) (step : Nat) : Bool :=
  match cancelAfter with
  | none => false
  | some k => k ≤ step

/-- Model of `(*HoursNode).Post`: POST the marshalled node to the node URL. The
oracle supplies the wire response for the call at operation index `step`. -/
def HoursNode.post (n : HoursNode) (target : String)
    (oracle : Nat → ApiRequest → HttpResponse) (cancelAfter : Option Nat)
    (step : Nat) : Except RunError HoursNode :=
  let url := nodeURL target
  n.doAPICall "POST" url (ctxErr cancelAfter step) (oracle step ⟨"POST", url, marshalNode n⟩)

/-- Model of `(*HoursNode).Patch`: PATCH the marshalled node to the node URL with
its id appended. -/
def HoursNode.patch (n : HoursNode) (target : String)
    (oracle : Nat → ApiRequest → HttpResponse) (cancelAfter : Option Nat)
    (step : Nat) : Except RunError HoursNode :=
  let url := nodePatchURL target n.ID
  n.doAPICall "PATCH" url (ctxErr cancelAfter step) (oracle step ⟨"PATCH", url, marshalNode n⟩)

/-- Model of `(*HoursByDayParagraph).Post`: POST the marshalled paragraph to the
paragraph URL. -/
def HoursByDayParagraph.post (p : HoursByDayParagraph) (target : String)
    (oracle : Nat → ApiRequest → HttpResponse) (cancelAfter : Option Nat)
    (step : Nat) : Except RunError HoursByDayParagraph :=
  let url := paragraphURL target
  p.doAPICall "POST" url (ctxErr cancelAfter step) (oracle step ⟨"POST", url, marshalParagraph p⟩)

/-- Append a record to the month group for `key`, creating the group at the
end if the key is new (`months[monthAndYear] = append(months[monthAndYear], h)`). -/
def insertGroup : List (String × List DailyHours) → String → DailyHours →
    List (String × List DailyHours)
  | [], key, h => [(key, [h])]
  | (k, l) :: rest, key, h =>
    if k = key then (k, l ++ [h]) :: rest
    else (k, l) :: insertGroup rest key h

/-- The month-partitioning loop of `process`: group key
`h.Day.Format("January, 2006")`. The Go map is modelled as an association
list in key-insertion order; Go's own iteration order over the map is
unspecified, and no claim proved here depends on the cross-group order. -/
def groupByMonth (hours : List DailyHours) : List (String × List DailyHours) :=
  hours.foldl (fun acc h => insertGroup acc (formatMonthYear h.Day) h) []

/-- The list a map lookup `months[key]` yields: the group stored for the
key, or the empty (nil) list when the key is absent. -/
def findGroup : List (String × List DailyHours) → String → List DailyHours
  | [], _ => []
  | (k, l) :: rest, key => if k = key then l else findGroup rest key

/-- The per-day inner loop of `process` for one month group: check
`ctx.Err()` before each day, then create the paragraph, append the
relationship built from the (response-updated) paragraph to the parent
node, and PATCH the parent. Returns the events attempted, the next
operation index, and the final node (or first error). -/
def runDays (oracle : Nat → ApiRequest → HttpResponse) (cancelAfter : Option Nat)
    (target : String) :
    HoursNode → List DailyHours → Nat → List Event × Nat × Except RunError HoursNode
  | n, [], step => ([], step, .ok n)
  | n, h :: rest, step =>
    if ctxErr cancelAfter step then ([], step, .error .cancelled)
    else
      let p := NewHoursByDayParagraph n.ID h.BuildingHours h.ChatHours (formatISO h.Day) h.Note
      match p.post target oracle cancelAfter step with
      | .error e => ([.paragraphCreate (formatISO h.Day)], step + 1, .error e)
      | .ok p' =>
        let r := NewParagraphRelationship p'.Type' p'.ID p'.DrupalInternalRevisionID
        let n' : HoursNode := { n with FieldDay := n.FieldDay ++ [r] }
        match n'.patch target oracle cancelAfter (step + 1) with
        | .error e => ([.paragraphCreate (formatISO h.Day), .nodePatch n'.ID], step + 2, .error e)
        | .ok updated =>
          let res := runDays oracle cancelAfter target updated rest (step + 2)
          (.paragraphCreate (formatISO h.Day) :: .nodePatch n'.ID :: res.1, res.2.1, res.2.2)

/-- The per-month outer loop of `process`: create the container node (with
no preceding cancellation check), then run the day loop. -/
def runMonths (oracle : Nat → ApiRequest → HttpResponse) (cancelAfter : Option Nat)
    (target : String) :
    List (String × List DailyHours) → Nat → List Event × Except RunError Unit
  | [], _ => ([], .ok ())
  | (month, days) :: rest, step =>
    let n := NewHoursNode month
    match n.post target oracle cancelAfter step with
    | .error e => ([.nodeCreate month], .error e)
    | .ok created =>
      match runDays oracle cancelAfter target created days (step + 1) with
      | (evs, _, .error e) => (.nodeCreate month :: evs, .error e)
      | (evs, stepAfter, .ok _) =>
        let res := runMonths oracle cancelAfter target rest stepAfter
        (.nodeCreate month :: evs ++ res.1, res.2)

/-- The file-loading loop of `process`: read each CSV file in argument
order; the first error aborts (wrapped with the file), and the per-file
record lists are concatenated. No cancellation check is involved — in the
source this loop runs before the cancellation context is even created. -/
def loadAll : List (List (List String)) → Nat →
    List Event × Except RunError (List DailyHours)
  | [], _ => ([], .ok [])
  | file :: rest, idx =>
    match loadFromCSV file with
    | (_, some e) => ([.fileRead idx], .error (.loadError idx e))
    | (h, none) =>
      match loadAll rest (idx + 1) with
      | (evs, .error e) => (.fileRead idx :: evs, .error e)
      | (evs, .ok hs) => (.fileRead idx :: evs, .ok (h ++ hs))

/-- Model of `process` (final design): load every input file, partition the
concatenated records by month, then — only now under the signal-cancellable
context — create each month node and its day paragraphs. Returns the trace
of attempted operations and the overall result. -/
def process (files : List (List (List String))) (target : String)
    (oracle : Nat → ApiRequest → HttpResponse) (cancelAfter : Option Nat) :
    List Event × Except RunError Unit :=
  match loadAll files 0 with
  | (evs, .error e) => (evs, .error e)
  | (evs, .ok hours) =>
    let months := groupByMonth hours
    let res := runMonths oracle cancelAfter target months files.length
    (evs ++ res.1, res.2)

/-- Whether an event is a per-day API attempt (paragraph create or node
patch), for stating which work the cancellation check prevents. -/
def isDayAPIEvent : Event → Bool
  | .paragraphCreate _ => true
  | .nodePatch _ => true
  | _ => false

/-- The paragraph `process` constructs for one day: parent id from the
created node, the day formatted as `YYYY-MM-DD`. -/
def sentParagraph (nid : String) (d : DailyHours) : HoursByDayParagraph :=
  NewHoursByDayParagraph nid d.BuildingHours d.ChatHours (formatISO d.Day) d.Note

/-- The relationship entries the day loop is expected to accumulate when
the server assigns identifier `pid s` and revision `rev s` to the
paragraph created at operation index `s`: one entry per day, in day order,
paragraph creates sitting at every second index from `s0`. -/
def expectedRels (pid : Nat → String) (rev : Nat → Int) : Nat → Nat → List ParagraphRelationship
  | _, 0 => []
  | s, k + 1 => ⟨"paragraph--hours_by_day", pid s, rev s⟩ :: expectedRels pid rev (s + 2) k

/-- The node state after `k` days of one month group have been published:
the initial node with the first `k` expected relationships appended. -/
def nodeAfter (n : HoursNode) (pid : Nat → String) (rev : Nat → Int)
    (step0 k : Nat) : HoursNode :=
  { n with FieldDay := n.FieldDay ++ expectedRels pid rev step0 k }


/-- Zero-value `DailyHours`, used as the (never consulted) default for
index-based access in oracle hypotheses. -/
def dfltDay : DailyHours := ⟨⟨0, 0, 0⟩, "", "", ""⟩

/-- Server-assigned paragraph identifiers per operation index for the
concrete two-day scenario used to witness relationship accumulation. -/
def pidW : Nat → String := fun s => if s = 1 then "para-a" else "para-b"

/-- Server-assigned internal ids per operation index for the scenario. -/
def iidW : Nat → Int := fun s => if s = 1 then 7 else 8

/-- Server-assigned revision ids per operation index for the scenario. -/
def revW : Nat → Int := fun s => if s = 1 then 11 else 22

/-- Two March days for the scenario. -/
def daysW : List DailyHours :=
  [⟨⟨2024, 3, 5⟩, "", "9-5", "10-4"⟩, ⟨⟨2024, 3, 6⟩, "", "8-4", "9-3"⟩]

/-- The already-created parent node for the scenario. -/
def nodeW : HoursNode := ⟨"node--hours", "nid1", "March, 2024", []⟩

/-- The mocked server for the scenario: create responses echo the sent
paragraph with the assigned ids, update responses echo the sent node. -/
def oracleW : Nat → ApiRequest → HttpResponse := fun s _ =>
  if s = 1 then ⟨201, "\x7b\"data\":\x7b\"type\":\"paragraph--hours_by_day\",\"id\":\"para-a\",\"attributes\":\x7b\"drupal_internal__id\":7,\"drupal_internal__revision_id\":11,\"parent_id\":\"nid1\",\"parent_type\":\"node\",\"parent_field_name\":\"field_day\",\"field_building_hours\":\"9-5\",\"field_chat_hours\":\"10-4\",\"field_day\":\"2024-03-05\",\"field_note\":\"\"\x7d\x7d\x7d"⟩
  else if s = 2 then ⟨200, "\x7b\"data\":\x7b\"type\":\"node--hours\",\"id\":\"nid1\",\"attributes\":\x7b\"title\":\"March, 2024\"\x7d,\"relationships\":\x7b\"field_day\":\x7b\"data\":[\x7b\"type\":\"paragraph--hours_by_day\",\"id\":\"para-a\",\"meta\":\x7b\"target_revision_id\":11\x7d\x7d]\x7d\x7d\x7d\x7d"⟩
  else if s = 3 then ⟨201, "\x7b\"data\":\x7b\"type\":\"paragraph--hours_by_day\",\"id\":\"para-b\",\"attributes\":\x7b\"drupal_internal__id\":8,\"drupal_internal__revision_id\":22,\"parent_id\":\"nid1\",\"parent_type\":\"node\",\"parent_field_name\":\"field_day\",\"field_building_hours\":\"8-4\",\"field_chat_hours\":\"9-3\",\"field_day\":\"2024-03-06\",\"field_note\":\"\"\x7d\x7d\x7d"⟩
  else ⟨200, "\x7b\"data\":\x7b\"type\":\"node--hours\",\"id\":\"nid1\",\"attributes\":\x7b\"title\":\"March, 2024\"\x7d,\"relationships\":\x7b\"field_day\":\x7b\"data\":[\x7b\"type\":\"paragraph--hours_by_day\",\"id\":\"para-a\",\"meta\":\x7b\"target_revision_id\":11\x7d\x7d,\x7b\"type\":\"paragraph--hours_by_day\",\"id\":\"para-b\",\"meta\":\x7b\"target_revision_id\":22\x7d\x7d]\x7d\x7d\x7d\x7d"⟩

theorem colIndexAux_not_found (name : String) (l : List String) :
    ∀ (i acc : Nat), (∀ c ∈ l, c.trimSpace ≠ name) → colIndexAux name l i acc = acc := by
  induction l with
  | nil => intro i acc _; rfl
  | cons c rest ih =>
    intro i acc h
    simp only [colIndexAux]
    rw [if_neg (h c (List.mem_cons_self c rest))]
    exact ih _ _ (fun x hx => h x (List.mem_cons_of_mem _ hx))

theorem rowOK_spec {h : String → Nat} {w : Nat} {l : List String}
    (hok : rowOK h w l = true) :
    l.length = w ∧ (fieldAt l (h "day")).trimSpace ≠ "" ∧
    (∃ d, parseDate ((fieldAt l (h "day")).trimSpace) = some d) ∧
    (fieldAt l (h "building hours")).trimSpace ≠ "" ∧
    (fieldAt l (h "chat hours")).trimSpace ≠ "" := by
  simp only [rowOK, Bool.and_eq_true, decide_eq_true_eq, Option.isSome_iff_exists] at hok
  tauto

theorem processRow_eq_ok (h : String → Nat) (l : List String) (n : Nat)
    (hday : (fieldAt l (h "day")).trimSpace ≠ "")
    (d : Date) (hparse : parseDate ((fieldAt l (h "day")).trimSpace) = some d)
    (hbh : (fieldAt l (h "building hours")).trimSpace ≠ "")
    (hch : (fieldAt l (h "chat hours")).trimSpace ≠ "") :
    processRow h l n = .ok (specDailyHours h l) := by
  simp only [processRow, specDailyHours]
  rw [if_neg hday, hparse]
  simp [hbh, hch]

theorem loadLoop_all_ok (h : String → Nat) (w : Nat) (rows : List (List String))
    (hok : ∀ l ∈ rows, rowOK h w l = true) :
    ∀ (ln : Nat) (acc : List DailyHours),
    loadLoop h w rows ln acc = (acc ++ rows.map (specDailyHours h), none) := by
  induction rows with
  | nil => intro ln acc; simp [loadLoop]
  | cons l rest ih =>
    intro ln acc
    obtain ⟨hlen, hday, ⟨d, hparse⟩, hbh, hch⟩ := rowOK_spec (hok l (List.mem_cons_self l rest))
    have h2 := ih (fun x hx => hok x (List.mem_cons_of_mem _ hx)) (ln + 1)
      (acc ++ [specDailyHours h l])
    simp only [loadLoop]
    rw [if_neg (by simp [hlen])]
    rw [processRow_eq_ok h l (ln + 1) hday d hparse hbh hch]
    simp [h2]

theorem loadLoop_ok_front (h : String → Nat) (w : Nat) (pre : List (List String))
    (hok : ∀ l ∈ pre, rowOK h w l = true) (rest : List (List String)) :
    ∀ (ln : Nat) (acc : List DailyHours),
    loadLoop h w (pre ++ rest) ln acc
      = loadLoop h w rest (ln + pre.length) (acc ++ pre.map (specDailyHours h)) := by
  induction pre with
  | nil => intro ln acc; simp
  | cons l p ih =>
    intro ln acc
    obtain ⟨hlen, hday, ⟨d, hparse⟩, hbh, hch⟩ := rowOK_spec (hok l (List.mem_cons_self l p))
    have h2 := ih (fun x hx => hok x (List.mem_cons_of_mem _ hx)) (ln + 1)
      (acc ++ [specDailyHours h l])
    simp only [List.cons_append, loadLoop]
    rw [if_neg (by simp [hlen])]
    rw [processRow_eq_ok h l (ln + 1) hday d hparse hbh hch]
    simp [h2, Nat.add_assoc, Nat.add_comm, Nat.add_left_comm]

/-- C8: For a CSV file with zero rows (end-of-stream on the very first
read), ingestion fails with the distinct "missing header" error and
produces no records. -/
theorem loadFromCSV_empty_file_no_header :
    loadFromCSV [] = ([], some .noHeader)
    ∧ csvErrMessage .noHeader = "csv file did not have a header"
    ∧ (.noHeader : CSVErr).isMissingData = false := by
  exact ⟨rfl, rfl, rfl⟩

/-- C9: The usage text the `help` flag prints: the program name, a
description line and a version line are as specified, but the
usage-pattern line interpolates the `Version` constant where the program
name was intended (the source's own comment says `ProjectName` is "the
name of the executable, as displayed to the user in usage and version
messages"), so the printed line is `Usage: devel [FLAGS] file [file...]`
and not `Usage: hours2drupal [FLAGS] file [file...]`. -/
theorem usageLine_uses_version_not_program_name :
    usageLine = "Usage: devel [FLAGS] file [file...]"
    ∧ usageLine ≠ "Usage: " ++ ProjectName ++ " [FLAGS] file [file...]"
    ∧ ProjectName = "hours2drupal" ∧ Version = "devel"
    ∧ usageHeaderLines =
      ["hours2drupal",
       "Process CSV files of hours, and import them into a target Drupal 9 website. devel",
       "Version devel",
       "Usage: devel [FLAGS] file [file...]"] := by
  refine ⟨rfl, by decide, rfl, rfl, rfl⟩

/-- C7: Every well-formed data row (non-empty trimmed day parsing as
`YYYY-MM-DD`, non-empty trimmed building hours and chat hours) yields
exactly one `DailyHours` record with the parsed date and the trimmed
texts; a day value that does not match the pattern makes ingestion fail
with an error naming the line number and wrapping the parse failure. -/
theorem loadFromCSV_wellformed_rows :
    (∀ (header : List String) (rows : List (List String)),
      (∀ l ∈ rows, rowOK (colIndex header) header.length l = true) →
      loadFromCSV (header :: rows)
        = (rows.map (specDailyHours (colIndex header)), none))
    ∧
    (∀ (header : List String) (pre : List (List String)) (r : List String)
       (post : List (List String)),
      (∀ l ∈ pre, rowOK (colIndex header) header.length l = true) →
      r.length = header.length →
      (fieldAt r (colIndex header "day")).trimSpace ≠ "" →
      parseDate ((fieldAt r (colIndex header "day")).trimSpace) = none →
      loadFromCSV (header :: (pre ++ r :: post))
        = (pre.map (specDailyHours (colIndex header)),
           some (.badDay (pre.length + 2) ((fieldAt r (colIndex header "day")).trimSpace)))) := by
  constructor
  · intro header rows hok
    simp only [loadFromCSV]
    rw [loadLoop_all_ok (colIndex header) header.length rows hok 1 []]
    simp
  · intro header pre r post hpre hlen hday hparse
    simp only [loadFromCSV]
    rw [loadLoop_ok_front (colIndex header) header.length pre hpre (r :: post) 1 []]
    simp only [loadLoop]
    rw [if_neg (by simp [hlen])]
    simp only [processRow]
    rw [if_neg hday, hparse]
    have harith : 1 + pre.length + 1 = pre.length + 2 := by omega
    simp [harith]

/-- Witness for C7 at a concrete file: the spec's example row, and a row
whose day has an out-of-range month. -/
theorem loadFromCSV_wellformed_rows_witness :
    loadFromCSV [["day", "building hours", "chat hours", "note"],
                 ["2024-03-05", "9-5", "10-4", " Closed early "]]
      = ([⟨⟨2024, 3, 5⟩, "Closed early", "9-5", "10-4"⟩], none)
    ∧ loadFromCSV [["day", "building hours", "chat hours", "note"],
                   ["2024-13-05", "9-5", "10-4", "x"]]
      = ([], some (.badDay 2 "2024-13-05")) := by
  constructor
  · have h := loadFromCSV_wellformed_rows.1
      ["day", "building hours", "chat hours", "note"]
      [["2024-03-05", "9-5", "10-4", " Closed early "]] (by decide)
    exact h.trans (by decide)
  · have h := loadFromCSV_wellformed_rows.2
      ["day", "building hours", "chat hours", "note"] []
      ["2024-13-05", "9-5", "10-4", "x"] [] (by decide) (by decide) (by decide) (by decide)
    exact h.trans (by decide)

/-- C1 counterexample: A file whose second data row has an empty
`day` field: ingestion does fail with the "missing data" error naming the
field and line 3, but the record parsed from the first data row IS
returned alongside the error — `loadFromCSV` returns its accumulated
`hours` slice together with the non-nil error — contradicting the claim
that no records are returned for the file. -/
theorem loadFromCSV_missing_data_counterexample :
    (loadFromCSV [["day", "building hours", "chat hours", "note"],
                  ["2024-03-05", "9-5", "10-4", "x"],
                  ["", "9-5", "10-4", "y"]]).2
      = some (.missingField "day" 3)
    ∧ (loadFromCSV [["day", "building hours", "chat hours", "note"],
                    ["2024-03-05", "9-5", "10-4", "x"],
                    ["", "9-5", "10-4", "y"]]).1
      = [⟨⟨2024, 3, 5⟩, "x", "9-5", "10-4"⟩]
    ∧ (loadFromCSV [["day", "building hours", "chat hours", "note"],
                    ["2024-03-05", "9-5", "10-4", "x"],
                    ["", "9-5", "10-4", "y"]]).1 ≠ [] := by
  refine ⟨by decide, by decide, by decide⟩

/-- C1 amended: If the rows before `r` are all well-formed and `r`
is the first offending row — empty day, or (parseable day and) empty
building hours, or (parseable day, non-empty building hours and) empty
chat hours — then ingestion fails with the `ErrMissingData`-wrapping error
naming that field and the 1-based line number `pre.length + 2` (the header
is line 1), and the records parsed from the earlier rows are returned
alongside the error (the caller discards them on error). -/
theorem loadFromCSV_missing_field_first :
    ∀ (header : List String) (pre : List (List String)) (r : List String)
      (post : List (List String)) (f : String),
    (∀ l ∈ pre, rowOK (colIndex header) header.length l = true) →
    r.length = header.length →
    ((fieldAt r (colIndex header "day")).trimSpace = "" ∧ f = "day")
    ∨ ((fieldAt r (colIndex header "day")).trimSpace ≠ "" ∧
       (parseDate ((fieldAt r (colIndex header "day")).trimSpace)).isSome ∧
       (fieldAt r (colIndex header "building hours")).trimSpace = "" ∧ f = "building hours")
    ∨ ((fieldAt r (colIndex header "day")).trimSpace ≠ "" ∧
       (parseDate ((fieldAt r (colIndex header "day")).trimSpace)).isSome ∧
       (fieldAt r (colIndex header "building hours")).trimSpace ≠ "" ∧
       (fieldAt r (colIndex header "chat hours")).trimSpace = "" ∧ f = "chat hours") →
    loadFromCSV (header :: (pre ++ r :: post))
      = (pre.map (specDailyHours (colIndex header)),
         some (.missingField f (pre.length + 2)))
    ∧ (CSVErr.missingField f (pre.length + 2)).isMissingData = true
    ∧ csvErrMessage (.missingField f (pre.length + 2))
        = "missing data: empty " ++ f ++ " on line " ++ toString (pre.length + 2) := by
  intro header pre r post f hpre hlen hcase
  refine ⟨?_, rfl, rfl⟩
  have hrow : processRow (colIndex header) r (1 + pre.length + 1)
      = .error (.missingField f (1 + pre.length + 1)) := by
    rcases hcase with ⟨hd, hf⟩ | ⟨hd, hp, hbh, hf⟩ | ⟨hd, hp, hbh, hch, hf⟩
    · subst hf
      simp only [processRow]
      rw [if_pos hd]
    · subst hf
      obtain ⟨d, hd2⟩ := Option.isSome_iff_exists.mp hp
      simp only [processRow]
      rw [if_neg hd, hd2]
      simp [hbh]
    · subst hf
      obtain ⟨d, hd2⟩ := Option.isSome_iff_exists.mp hp
      simp only [processRow]
      rw [if_neg hd, hd2]
      simp [hbh, hch]
  simp only [loadFromCSV]
  rw [loadLoop_ok_front (colIndex header) header.length pre hpre (r :: post) 1 []]
  simp only [loadLoop]
  rw [if_neg (by simp [hlen]), hrow]
  have harith : 1 + pre.length + 1 = pre.length + 2 := by omega
  simp [harith]

/-- Witness for the amended C1: one good row, then an empty-day row; the
error names `day` and line 3 and the good row's record rides along. -/
theorem loadFromCSV_missing_field_first_witness :
    loadFromCSV [["day", "building hours", "chat hours", "note"],
                 ["2024-03-05", "9-5", "10-4", "x"],
                 ["", "9-5", "10-4", "y"]]
      = ([⟨⟨2024, 3, 5⟩, "x", "9-5", "10-4"⟩], some (.missingField "day" 3)) := by
  have h := loadFromCSV_missing_field_first
    ["day", "building hours", "chat hours", "note"]
    [["2024-03-05", "9-5", "10-4", "x"]]
    ["", "9-5", "10-4", "y"] [] "day"
    (by decide) (by decide) (Or.inl (by decide))
  exact h.1.trans (by decide)

/-- C10: When the header lacks one of the looked-up column names, the
Go map lookup yields index 0, so the field's value is silently taken from
the first column and the row is accepted or rejected based on that value;
no missing-column error exists. Shown generally for the lookup and at a
concrete header without a `day` column: a first-column date is accepted as
the day, a blank first column is rejected as a missing day. -/
theorem colIndex_missing_column_defaults_to_zero :
    (∀ (header : List String) (name : String),
       (∀ c ∈ header, c.trimSpace ≠ name) → colIndex header name = 0)
    ∧ (∀ (header : List String) (l : List String),
       (∀ c ∈ header, c.trimSpace ≠ "day") →
       fieldAt l (colIndex header "day") = fieldAt l 0)
    ∧ loadFromCSV [["x", "building hours", "chat hours", "note"],
                   ["2024-03-05", "9-5", "10-4", "n"]]
        = ([⟨⟨2024, 3, 5⟩, "n", "9-5", "10-4"⟩], none)
    ∧ loadFromCSV [["x", "building hours", "chat hours", "note"],
                   [" ", "9-5", "10-4", "n"]]
        = ([], some (.missingField "day" 2)) := by
  refine ⟨?_, ?_, by decide, by decide⟩
  · intro header name h
    exact colIndexAux_not_found name header 0 0 h
  · intro header l h
    exact congrArg (fieldAt l) (colIndexAux_not_found "day" header 0 0 h)

/-- Witness for C10: a header with no cell trimming to `day` looks up to
index 0. -/
theorem colIndex_missing_column_defaults_to_zero_witness :
    colIndex ["x", "building hours", "chat hours", "note"] "day" = 0
    ∧ fieldAt ["2024-03-05", "9-5"] (colIndex ["x", "b"] "day")
        = fieldAt ["2024-03-05", "9-5"] 0 :=
  ⟨colIndex_missing_column_defaults_to_zero.1 _ _ (by decide),
   colIndex_missing_column_defaults_to_zero.2.1 _ _ (by decide)⟩

theorem findGroup_insertGroup (acc : List (String × List DailyHours))
    (key k : String) (h : DailyHours) :
    findGroup (insertGroup acc key h) k
      = if key = k then findGroup acc k ++ [h] else findGroup acc k := by
  induction acc with
  | nil =>
    by_cases hk : key = k <;> simp [insertGroup, findGroup, hk]
  | cons p rest ih =>
    obtain ⟨k', l⟩ := p
    by_cases h1 : k' = key
    · subst h1
      by_cases h2 : k' = k <;> simp [insertGroup, findGroup, h2]
    · by_cases h2 : k' = k
      · subst h2
        simp [insertGroup, findGroup, h1, Ne.symm h1]
      · simp [insertGroup, findGroup, h1, h2, ih]

theorem findGroup_foldl (hs : List DailyHours) :
    ∀ (acc : List (String × List DailyHours)) (k : String),
    findGroup (hs.foldl (fun acc h => insertGroup acc (formatMonthYear h.Day) h) acc) k
      = findGroup acc k ++ hs.filter (fun h => formatMonthYear h.Day = k) := by
  induction hs with
  | nil => intro acc k; simp
  | cons h t ih =>
    intro acc k
    simp only [List.foldl_cons, List.filter_cons]
    rw [ih, findGroup_insertGroup]
    by_cases hk : formatMonthYear h.Day = k
    · simp [hk]
    · simp [hk]

/-- C6: Grouping partitions the records by the month key
`<full month name>, <4-digit year>`: the group stored for any key is
exactly the subsequence of records whose date formats to that key (in
original encounter order), every record is a member of the group for its
own key and of no other group, and the spec's three-record example yields
exactly the two groups "March, 2024" and "April, 2024". -/
theorem groupByMonth_partition :
    (∀ (hours : List DailyHours) (key : String),
       findGroup (groupByMonth hours) key
         = hours.filter (fun h => formatMonthYear h.Day = key))
    ∧ (∀ (hours : List DailyHours) (h : DailyHours), h ∈ hours →
       h ∈ findGroup (groupByMonth hours) (formatMonthYear h.Day))
    ∧ (∀ (hours : List DailyHours) (key : String) (h : DailyHours),
       h ∈ findGroup (groupByMonth hours) key → formatMonthYear h.Day = key)
    ∧ formatMonthYear ⟨2024, 3, 1⟩ = "March, 2024"
    ∧ groupByMonth [⟨⟨2024, 3, 1⟩, "", "a", "b"⟩, ⟨⟨2024, 3, 31⟩, "", "c", "d"⟩,
                    ⟨⟨2024, 4, 1⟩, "", "e", "f"⟩]
        = [("March, 2024", [⟨⟨2024, 3, 1⟩, "", "a", "b"⟩, ⟨⟨2024, 3, 31⟩, "", "c", "d"⟩]),
           ("April, 2024", [⟨⟨2024, 4, 1⟩, "", "e", "f"⟩])] := by
  have hmain : ∀ (hours : List DailyHours) (key : String),
      findGroup (groupByMonth hours) key
        = hours.filter (fun h => formatMonthYear h.Day = key) := by
    intro hours key
    simpa [groupByMonth, findGroup] using findGroup_foldl hours [] key
  refine ⟨hmain, ?_, ?_, by decide, by decide⟩
  · intro hours h hm
    rw [hmain]
    simp only [List.mem_filter, decide_eq_true_eq]
    exact ⟨hm, trivial⟩
  · intro hours key h hm
    rw [hmain] at hm
    simpa using (List.mem_filter.mp hm).2

/-- Witness for C6: a concrete record is found in its own month's group. -/
theorem groupByMonth_partition_witness :
    (⟨⟨2024, 3, 31⟩, "", "c", "d"⟩ : DailyHours) ∈
      findGroup (groupByMonth [⟨⟨2024, 3, 1⟩, "", "a", "b"⟩,
          ⟨⟨2024, 3, 31⟩, "", "c", "d"⟩, ⟨⟨2024, 4, 1⟩, "", "e", "f"⟩])
        (formatMonthYear ⟨2024, 3, 31⟩) :=
  groupByMonth_partition.2.1 _ _ (by decide)

/-- C3: For any call (create node, update node, create paragraph all
go through the same two `doAPICall` bodies), a response status other than
200 or 201 yields the error wrapping the `ErrAPIError` sentinel whose
message is exactly
`an API error occurred: <METHOD> <URL> failed [<status>]` + newline +
the raw body text. -/
theorem doAPICall_failure_message :
    ∀ (method url : String) (resp : HttpResponse) (n : HoursNode)
      (p : HoursByDayParagraph),
    resp.status ≠ 200 → resp.status ≠ 201 →
    n.doAPICall method url false resp
      = .error (.apiError method url resp.status resp.body)
    ∧ p.doAPICall method url false resp
      = .error (.apiError method url resp.status resp.body)
    ∧ (RunError.apiError method url resp.status resp.body).message
      = "an API error occurred: " ++ method ++ " " ++ url ++ " failed ["
        ++ toString resp.status ++ "]" ++ "\n" ++ resp.body
    ∧ (RunError.apiError method url resp.status resp.body).isAPIError = true := by
  intro method url resp n p h200 h201
  refine ⟨?_, ?_, rfl, rfl⟩
  · simp [HoursNode.doAPICall, h200, h201]
  · simp [HoursByDayParagraph.doAPICall, h200, h201]

/-- Witness for C3: the spec's mocked 500/"server error" scenario on a
create-node call against the default target. -/
theorem doAPICall_failure_message_witness :
    (NewHoursNode "March, 2024").doAPICall "POST" (nodeURL "library.carleton.ca")
        false ⟨500, "server error"⟩
      = .error (.apiError "POST" "https://library.carleton.ca/jsonapi/node/hours"
          500 "server error")
    ∧ (RunError.apiError "POST" "https://library.carleton.ca/jsonapi/node/hours"
          500 "server error").message
      = "an API error occurred: POST https://library.carleton.ca/jsonapi/node/hours failed [500]\nserver error" := by
  have h := doAPICall_failure_message "POST" (nodeURL "library.carleton.ca")
    ⟨500, "server error"⟩ (NewHoursNode "March, 2024")
    (NewHoursByDayParagraph "" "" "" "" "") (by decide) (by decide)
  exact ⟨h.1.trans rfl, rfl⟩

set_option maxRecDepth 16384 in
/-- C4: A 200/201 response has its full body parsed as the request's
JSON shape and merged over the in-memory record: with the spec's concrete
201 node body, the node's identifier becomes "42" and its title (already
"March, 2024") and relationship list are unchanged; with a concrete
paragraph body, the server-assigned identifier and the internal id and
revision id are read back, all other fields unchanged. -/
theorem doAPICall_success_updates_in_place :
    (∀ (n : HoursNode) (method url : String), n.Title = "March, 2024" →
      n.doAPICall method url false
        ⟨201, "\x7b\"data\":\x7b\"type\":\"node--hours\",\"id\":\"42\",\"attributes\":\x7b\"title\":\"March, 2024\"\x7d\x7d\x7d"⟩
        = .ok { n with Type' := "node--hours", ID := "42" })
    ∧ (∀ (p : HoursByDayParagraph) (method url : String),
      p.doAPICall method url false
        ⟨201, "\x7b\"data\":\x7b\"type\":\"paragraph--hours_by_day\",\"id\":\"abc\",\"attributes\":\x7b\"drupal_internal__id\":7,\"drupal_internal__revision_id\":9\x7d\x7d\x7d"⟩
        = .ok ⟨"paragraph--hours_by_day", "abc", 7, 9, p.ParentID, p.ParentType,
               p.ParentFieldName, p.BuildingHours, p.ChatHours, p.Day, p.Note⟩) := by
  constructor
  · intro n method url hT
    obtain ⟨t, i, ti, f⟩ := n
    have hT' : ti = "March, 2024" := hT
    subst hT'
    rfl
  · intro p method url
    obtain ⟨t, i, di, dr, pi, pt, pf, bh, ch, dy, nt⟩ := p
    rfl

set_option maxRecDepth 16384 in
/-- Witness for C4: the freshly built March node gains identifier "42"
and keeps its title. -/
theorem doAPICall_success_updates_in_place_witness :
    (NewHoursNode "March, 2024").doAPICall "POST" (nodeURL "library.carleton.ca") false
        ⟨201, "\x7b\"data\":\x7b\"type\":\"node--hours\",\"id\":\"42\",\"attributes\":\x7b\"title\":\"March, 2024\"\x7d\x7d\x7d"⟩
      = .ok ⟨"node--hours", "42", "March, 2024", []⟩ := by
  have h := doAPICall_success_updates_in_place.1 (NewHoursNode "March, 2024")
    "POST" (nodeURL "library.carleton.ca") (by decide)
  exact h.trans rfl

theorem except_bind_ok {ε α β : Type} (a : α) (f : α → Except ε β) :
    (Except.ok a : Except ε α) >>= f = f a := rfl

theorem unmarshalRel_toJson (r z : ParagraphRelationship) :
    unmarshalRel r.toJson z = .ok r := by
  obtain ⟨t, i, rev⟩ := r
  rfl

theorem mapM_unmarshalRel_toJson (rels : List ParagraphRelationship) :
    (rels.map ParagraphRelationship.toJson).mapM (fun e => unmarshalRel e ⟨"", "", 0⟩)
      = .ok rels := by
  induction rels with
  | nil => rfl
  | cons r rs ih =>
    simp only [List.map_cons, List.mapM_cons, unmarshalRel_toJson, except_bind_ok, ih]
    rfl

theorem mergeRels_marshal (fd cur : List ParagraphRelationship) :
    mergeRels cur (some (if fd.isEmpty then Json.null
      else Json.arr (fd.map ParagraphRelationship.toJson))) = .ok fd := by
  cases fd with
  | nil => rfl
  | cons r rs =>
    simp only [List.isEmpty_cons, Bool.false_eq_true, if_false]
    simpa [mergeRels] using mapM_unmarshalRel_toJson (r :: rs)

theorem unmarshalNode_marshalNode (q n : HoursNode) :
    unmarshalNode (marshalNode q) n
      = .ok { q with ID := if q.ID = "" then n.ID else q.ID } := by
  obtain ⟨t, i, ti, fd⟩ := q
  by_cases hid : i = ""
  · subst hid
    show Except.bind (mergeRels n.FieldDay (some (if fd.isEmpty then Json.null
        else Json.arr (fd.map ParagraphRelationship.toJson))))
      (fun rels => (Except.ok ⟨t, n.ID, ti, rels⟩ : Except String HoursNode)) = _
    rw [show mergeRels n.FieldDay (some (if fd.isEmpty then Json.null
        else Json.arr (fd.map ParagraphRelationship.toJson))) = Except.ok fd
      from mergeRels_marshal fd n.FieldDay]
    rfl
  · simp only [marshalNode, if_neg hid]
    show Except.bind (mergeRels n.FieldDay (some (if fd.isEmpty then Json.null
        else Json.arr (fd.map ParagraphRelationship.toJson))))
      (fun rels => (Except.ok ⟨t, i, ti, rels⟩ : Except String HoursNode)) = _
    rw [show mergeRels n.FieldDay (some (if fd.isEmpty then Json.null
        else Json.arr (fd.map ParagraphRelationship.toJson))) = Except.ok fd
      from mergeRels_marshal fd n.FieldDay]
    rfl

theorem unmarshalParagraph_marshal_inject_aux
    (ty pI pT pF bh ch dy nt pid : String) (iid rev : Int) :
    unmarshalParagraph
      (marshalParagraph ⟨ty, pid, iid, rev, pI, pT, pF, bh, ch, dy, nt⟩)
      ⟨ty, "", 0, 0, pI, pT, pF, bh, ch, dy, nt⟩
      = .ok ⟨ty, pid, iid, rev, pI, pT, pF, bh, ch, dy, nt⟩ := by
  by_cases hp : pid = "" <;> by_cases hi : iid = 0 <;> by_cases hr : rev = 0 <;>
    simp only [marshalParagraph, hp, hi, hr, if_true, if_false] <;> rfl

theorem unmarshalParagraph_marshal_inject (p : HoursByDayParagraph)
    (hID : p.ID = "") (hiid : p.DrupalInternalID = 0)
    (hrev : p.DrupalInternalRevisionID = 0) (pid : String) (iid rev : Int) :
    unmarshalParagraph (marshalParagraph
      { p with ID := pid, DrupalInternalID := iid, DrupalInternalRevisionID := rev }) p
      = .ok { p with ID := pid, DrupalInternalID := iid, DrupalInternalRevisionID := rev } := by
  obtain ⟨ty, pid0, di0, dr0, pI, pT, pF, bh, ch, dy, nt⟩ := p
  have h1 : pid0 = "" := hID
  have h2 : di0 = 0 := hiid
  have h3 : dr0 = 0 := hrev
  subst h1 h2 h3
  exact unmarshalParagraph_marshal_inject_aux ty pI pT pF bh ch dy nt pid iid rev

theorem nodeAfter_zero (n : HoursNode) (pid : Nat → String) (rev : Nat → Int) (s : Nat) :
    nodeAfter n pid rev s 0 = n := by
  simp [nodeAfter, expectedRels]

theorem nodeAfter_step (n : HoursNode) (pid : Nat → String) (rev : Nat → Int) (s k : Nat) :
    nodeAfter (nodeAfter n pid rev s 1) pid rev (s + 2) k = nodeAfter n pid rev s (k + 1) := by
  simp [nodeAfter, expectedRels]

theorem runDays_accumulates (oracle : Nat → ApiRequest → HttpResponse) (target : String)
    (pid : Nat → String) (iid rev : Nat → Int) :
    ∀ (days : List DailyHours) (n : HoursNode) (step0 : Nat),
    (∀ (k : Nat) (hk : k < days.length),
       (oracle (step0 + 2 * k) ⟨"POST", paragraphURL target,
          marshalParagraph (sentParagraph n.ID (days.getD k dfltDay))⟩).status = 201 ∧
       parseJson (oracle (step0 + 2 * k) ⟨"POST", paragraphURL target,
          marshalParagraph (sentParagraph n.ID (days.getD k dfltDay))⟩).body
         = some (marshalParagraph
             { sentParagraph n.ID (days.getD k dfltDay) with
               ID := pid (step0 + 2 * k),
               DrupalInternalID := iid (step0 + 2 * k),
               DrupalInternalRevisionID := rev (step0 + 2 * k) })) →
    (∀ (k : Nat) (hk : k < days.length),
       (oracle (step0 + 2 * k + 1) ⟨"PATCH", nodePatchURL target n.ID,
          marshalNode (nodeAfter n pid rev step0 (k + 1))⟩).status = 200 ∧
       parseJson (oracle (step0 + 2 * k + 1) ⟨"PATCH", nodePatchURL target n.ID,
          marshalNode (nodeAfter n pid rev step0 (k + 1))⟩).body
         = some (marshalNode (nodeAfter n pid rev step0 (k + 1)))) →
    (runDays oracle none target n days step0).2
      = (step0 + 2 * days.length, .ok (nodeAfter n pid rev step0 days.length)) := by
  intro days
  induction days with
  | nil =>
    intro n step0 _ _
    simp [runDays, nodeAfter_zero]
  | cons d rest ih =>
    intro n step0 Hpara Hpatch
    obtain ⟨hst0, hbody0⟩ := Hpara 0 (by simp)
    obtain ⟨hpt0, hpb0⟩ := Hpatch 0 (by simp)
    simp only [Nat.mul_zero, Nat.add_zero, Nat.zero_add, List.getD_cons_zero]
      at hst0 hbody0 hpt0 hpb0
    have hpost : (sentParagraph n.ID d).post target oracle none step0
        = .ok { sentParagraph n.ID d with
                ID := pid step0,
                DrupalInternalID := iid step0,
                DrupalInternalRevisionID := rev step0 } := by
      simp only [HoursByDayParagraph.post, HoursByDayParagraph.doAPICall, ctxErr]
      rw [hst0, hbody0]
      simp
      rw [unmarshalParagraph_marshal_inject (sentParagraph n.ID d) rfl rfl rfl]
    have hpatch : (nodeAfter n pid rev step0 1).patch target oracle none (step0 + 1)
        = .ok (nodeAfter n pid rev step0 1) := by
      simp only [HoursNode.patch, HoursNode.doAPICall, ctxErr]
      rw [show (nodeAfter n pid rev step0 1).ID = n.ID from rfl]
      rw [hpt0, hpb0]
      simp
      rw [unmarshalNode_marshalNode, ite_self]
    simp only [runDays, ctxErr]
    rw [show NewHoursByDayParagraph n.ID d.BuildingHours d.ChatHours (formatISO d.Day) d.Note
        = sentParagraph n.ID d from rfl]
    rw [hpost]
    have hn1 : NewParagraphRelationship (sentParagraph n.ID d).Type' (pid step0) (rev step0)
        = (⟨"paragraph--hours_by_day", pid step0, rev step0⟩ : ParagraphRelationship) := rfl
    have hn2 : ({ Type' := n.Type'
                  ID := n.ID
                  Title := n.Title
                  FieldDay := n.FieldDay ++
                    [(⟨"paragraph--hours_by_day", pid step0, rev step0⟩ : ParagraphRelationship)] } : HoursNode)
        = nodeAfter n pid rev step0 1 := rfl
    simp only [Bool.false_eq_true, if_false, hn1, hn2, hpatch]
    have hid1 : (nodeAfter n pid rev step0 1).ID = n.ID := rfl
    have harith : ∀ k : Nat, step0 + 2 * (k + 1) = step0 + 2 + 2 * k := fun k => by omega
    have hih : (runDays oracle none target (nodeAfter n pid rev step0 1) rest (step0 + 2)).2
        = (step0 + 2 + 2 * rest.length,
           .ok (nodeAfter (nodeAfter n pid rev step0 1) pid rev (step0 + 2) rest.length)) := by
      apply ih
      · intro k hk
        have h := Hpara (k + 1) (by simp; omega)
        rw [harith k] at h
        simpa [List.getD_cons_succ, hid1] using h
      · intro k hk
        have h := Hpatch (k + 1) (by simp; omega)
        rw [harith k] at h
        simpa [hid1, nodeAfter_step] using h
    rw [Prod.mk.eta, hih, nodeAfter_step]
    simp only [List.length_cons, Prod.mk.injEq]
    exact ⟨by omega, trivial⟩

theorem expectedRels_length (pid : Nat → String) (rev : Nat → Int) :
    ∀ (k s : Nat), (expectedRels pid rev s k).length = k := by
  intro k
  induction k with
  | zero => intro s; rfl
  | succ k ih => intro s; simp [expectedRels, ih]

theorem expectedRels_grows (pid : Nat → String) (rev : Nat → Int) :
    ∀ (k s : Nat), ∃ t, expectedRels pid rev s k ++ t = expectedRels pid rev s (k + 1) := by
  intro k
  induction k with
  | zero => intro s; exact ⟨expectedRels pid rev s 1, rfl⟩
  | succ k ih =>
    intro s
    obtain ⟨t, ht⟩ := ih (s + 2)
    exact ⟨t, by simp [expectedRels, ht]⟩

/-- C5: In one month-group run in which the server assigns identifier
`pid s` and revision `rev s` to the paragraph created at operation index
`s` (create responses echo the request with the assigned identifiers;
update responses echo the node), the day loop ends with the parent node
carrying its initial relationship list plus exactly one entry per day, in
day order, each entry holding the paragraph type, the server-assigned
identifier and the internal revision identifier of that day's paragraph;
the list after `k` days is a prefix of the list after `k + 1` days, so it
only ever grows. -/
theorem node_relationships_accumulate (oracle : Nat → ApiRequest → HttpResponse)
    (target : String) (pid : Nat → String) (iid rev : Nat → Int)
    (days : List DailyHours) (n : HoursNode) (step0 : Nat)
    (Hpara : ∀ (k : Nat) (hk : k < days.length),
       (oracle (step0 + 2 * k) ⟨"POST", paragraphURL target,
          marshalParagraph (sentParagraph n.ID (days.getD k dfltDay))⟩).status = 201 ∧
       parseJson (oracle (step0 + 2 * k) ⟨"POST", paragraphURL target,
          marshalParagraph (sentParagraph n.ID (days.getD k dfltDay))⟩).body
         = some (marshalParagraph
             { sentParagraph n.ID (days.getD k dfltDay) with
               ID := pid (step0 + 2 * k),
               DrupalInternalID := iid (step0 + 2 * k),
               DrupalInternalRevisionID := rev (step0 + 2 * k) }))
    (Hpatch : ∀ (k : Nat) (hk : k < days.length),
       (oracle (step0 + 2 * k + 1) ⟨"PATCH", nodePatchURL target n.ID,
          marshalNode (nodeAfter n pid rev step0 (k + 1))⟩).status = 200 ∧
       parseJson (oracle (step0 + 2 * k + 1) ⟨"PATCH", nodePatchURL target n.ID,
          marshalNode (nodeAfter n pid rev step0 (k + 1))⟩).body
         = some (marshalNode (nodeAfter n pid rev step0 (k + 1)))) :
    (runDays oracle none target n days step0).2
      = (step0 + 2 * days.length, .ok (nodeAfter n pid rev step0 days.length))
    ∧ (nodeAfter n pid rev step0 days.length).FieldDay
        = n.FieldDay ++ expectedRels pid rev step0 days.length
    ∧ (expectedRels pid rev step0 days.length).length = days.length
    ∧ (∀ k : Nat, ∃ t, (nodeAfter n pid rev step0 k).FieldDay ++ t
        = (nodeAfter n pid rev step0 (k + 1)).FieldDay) := by
  refine ⟨runDays_accumulates oracle target pid iid rev days n step0 Hpara Hpatch,
    rfl, expectedRels_length pid rev days.length step0, ?_⟩
  intro k
  obtain ⟨t, ht⟩ := expectedRels_grows pid rev k step0
  exact ⟨t, by simp [nodeAfter, ht]⟩

set_option maxRecDepth 200000 in
set_option maxHeartbeats 2000000 in
/-- Witness for C5: a concrete run over the two-day scenario ends with the
two expected relationship entries, in day order. -/
theorem node_relationships_accumulate_witness :
    (runDays oracleW none "library.carleton.ca" nodeW daysW 1).2
      = (5, .ok ⟨"node--hours", "nid1", "March, 2024",
          [⟨"paragraph--hours_by_day", "para-a", 11⟩,
           ⟨"paragraph--hours_by_day", "para-b", 22⟩]⟩) := by
  have h := node_relationships_accumulate oracleW "library.carleton.ca" pidW iidW revW
    daysW nodeW 1
    (by intro k hk
        rcases k with _ | _ | k
        · exact ⟨rfl, rfl⟩
        · exact ⟨rfl, rfl⟩
        · simp only [daysW, List.length_cons, List.length_nil] at hk
          omega)
    (by intro k hk
        rcases k with _ | _ | k
        · exact ⟨rfl, rfl⟩
        · exact ⟨rfl, rfl⟩
        · simp only [daysW, List.length_cons, List.length_nil] at hk
          omega)
  exact h.1.trans rfl

theorem loadAll_events_fileRead :
    ∀ (files : List (List (List String))) (idx : Nat),
    ∀ e ∈ (loadAll files idx).1, isDayAPIEvent e = false := by
  intro files
  induction files with
  | nil => intro idx e he; simp [loadAll] at he
  | cons f rest ih =>
    intro idx e he
    simp only [loadAll] at he
    rcases hf : loadFromCSV f with ⟨h1, e1⟩
    rw [hf] at he
    cases e1 with
    | some err =>
      simp at he
      subst he
      rfl
    | none =>
      rcases hrec : loadAll rest (idx + 1) with ⟨evs2, r2⟩
      rw [hrec] at he
      cases r2 with
      | error e2 =>
        simp at he
        rcases he with he | he
        · subst he; rfl
        · exact ih (idx + 1) e (by rw [hrec]; exact he)
      | ok hs =>
        simp at he
        rcases he with he | he
        · subst he; rfl
        · exact ih (idx + 1) e (by rw [hrec]; exact he)

theorem runMonths_cancelled_events (oracle : Nat → ApiRequest → HttpResponse)
    (target : String) (months : List (String × List DailyHours)) (step : Nat) :
    (∀ e ∈ (runMonths oracle (some 0) target months step).1, isDayAPIEvent e = false)
    ∧ (months ≠ [] → (runMonths oracle (some 0) target months step).2 = .error .cancelled) := by
  cases months with
  | nil =>
    constructor
    · intro e he; simp [runMonths] at he
    · intro h; exact absurd rfl h
  | cons p rest =>
    obtain ⟨m, days⟩ := p
    have hpost : (NewHoursNode m).post target oracle (some 0) step = .error .cancelled := by
      simp [HoursNode.post, HoursNode.doAPICall, ctxErr]
    constructor
    · intro e he
      simp only [runMonths, hpost] at he
      simp at he
      subst he
      rfl
    · intro _
      simp [runMonths, hpost]

theorem insertGroup_ne_nil (acc : List (String × List DailyHours)) (k : String)
    (h : DailyHours) : insertGroup acc k h ≠ [] := by
  cases acc with
  | nil => simp [insertGroup]
  | cons p rest =>
    obtain ⟨k', l⟩ := p
    simp only [insertGroup]
    split <;> simp

theorem groupByMonth_ne_nil (hs : List DailyHours) (h : hs ≠ []) :
    groupByMonth hs ≠ [] := by
  cases hs with
  | nil => exact absurd rfl h
  | cons x t =>
    simp only [groupByMonth, List.foldl_cons]
    have hgen : ∀ (l : List DailyHours) (acc : List (String × List DailyHours)), acc ≠ [] →
        l.foldl (fun acc h => insertGroup acc (formatMonthYear h.Day) h) acc ≠ [] := by
      intro l
      induction l with
      | nil => intro acc ha; simpa using ha
      | cons y ys ih =>
        intro acc ha
        simp only [List.foldl_cons]
        exact ih _ (insertGroup_ne_nil _ _ _)
    exact hgen t _ (insertGroup_ne_nil _ _ _)

/-- C2 counterexample: With the interrupt signal delivered before
anything runs (cancellation triggered before the first file is processed),
the final design still reads both input files — `process` loads every CSV
file before the cancellation context is even created, with no per-file
check — and only afterwards fails with the cancellation error at the first
API call. This contradicts the claim that the run explicitly checks the
shared context before each input file and, when cancelled, stops without
attempting further file reads. -/
theorem process_reads_files_despite_cancellation :
    process [[["day", "building hours", "chat hours", "note"],
              ["2024-03-05", "9-5", "10-4", ""]],
             [["day", "building hours", "chat hours", "note"],
              ["2024-03-06", "9-5", "10-4", ""]]]
        "library.carleton.ca" (fun _ _ => ⟨500, "x"⟩) (some 0)
      = ([.fileRead 0, .fileRead 1, .nodeCreate "March, 2024"], .error .cancelled)
    ∧ Event.fileRead 1 ∈ (process [[["day", "building hours", "chat hours", "note"],
              ["2024-03-05", "9-5", "10-4", ""]],
             [["day", "building hours", "chat hours", "note"],
              ["2024-03-06", "9-5", "10-4", ""]]]
        "library.carleton.ca" (fun _ _ => ⟨500, "x"⟩) (some 0)).1 := by
  refine ⟨rfl, by decide⟩

/-- C2 amended: In the final design the only explicit cancellation
check sits at the top of the per-day loop: (1) once the signal has been
delivered, the day loop returns the cancellation error immediately,
attempting no paragraph-create or node-patch call; (2) a run whose context
is cancelled from the start performs no per-day API work at all — its
event trace holds only file reads and at most the month node-create
attempt, which itself fails through the HTTP layer; (3) such a run
surfaces the cancellation error whenever any records were loaded. File
reads are never guarded: they all happen before the context exists. -/
theorem process_cancellation_day_check :
    (∀ (oracle : Nat → ApiRequest → HttpResponse) (target : String) (n : HoursNode)
       (days : List DailyHours) (step c : Nat), c ≤ step → days ≠ [] →
       runDays oracle (some c) target n days step = ([], step, .error .cancelled))
    ∧ (∀ (files : List (List (List String))) (target : String)
       (oracle : Nat → ApiRequest → HttpResponse),
       ∀ e ∈ (process files target oracle (some 0)).1, isDayAPIEvent e = false)
    ∧ (∀ (files : List (List (List String))) (target : String)
       (oracle : Nat → ApiRequest → HttpResponse)
       (evs : List Event) (hours : List DailyHours),
       loadAll files 0 = (evs, .ok hours) → hours ≠ [] →
       (process files target oracle (some 0)).2 = .error .cancelled) := by
  refine ⟨?_, ?_, ?_⟩
  · intro oracle target n days step c hc hne
    cases days with
    | nil => exact absurd rfl hne
    | cons d rest =>
      have hctx : ctxErr (some c) step = true := by simp [ctxErr, hc]
      simp [runDays, hctx]
  · intro files target oracle e he
    simp only [process] at he
    rcases hl : loadAll files 0 with ⟨evs, res⟩
    rw [hl] at he
    cases res with
    | error err =>
      simp at he
      exact loadAll_events_fileRead files 0 e (by rw [hl]; exact he)
    | ok hours =>
      simp at he
      rcases he with he | he
      · exact loadAll_events_fileRead files 0 e (by rw [hl]; exact he)
      · exact (runMonths_cancelled_events oracle target (groupByMonth hours)
          files.length).1 e he
  · intro files target oracle evs hours hl hne
    simp only [process]
    rw [hl]
    simpa using (runMonths_cancelled_events oracle target (groupByMonth hours)
      files.length).2 (groupByMonth_ne_nil hours hne)

/-- Witness for the amended C2: the day check fires on a one-day group,
and a cancelled-from-the-start run over one file ends in the cancellation
error. -/
theorem process_cancellation_day_check_witness :
    runDays (fun _ _ => ⟨500, "x"⟩) (some 0) "t" (NewHoursNode "March, 2024")
        [⟨⟨2024, 3, 5⟩, "", "9-5", "10-4"⟩] 0 = ([], 0, .error .cancelled)
    ∧ (process [[["day", "building hours", "chat hours", "note"],
        ["2024-03-05", "9-5", "10-4", ""]]] "t" (fun _ _ => ⟨500, "x"⟩) (some 0)).2
      = .error .cancelled := by
  constructor
  · exact process_cancellation_day_check.1 _ _ _ _ _ _ (Nat.le_refl 0) (by decide)
  · exact process_cancellation_day_check.2.2 _ _ _ [.fileRead 0]
      [⟨⟨2024, 3, 5⟩, "", "9-5", "10-4"⟩] rfl (by decide)
